import Mathlib

/-!
# ndk-mobile `sig-check-module`: the JSI binding `nativeVerifySchnorr`

A shallow embedding of `ndk-mobile/sig-check-module/android/jsi-schnorr.cpp`:
the host function that decodes two hex strings, takes the bytes of a typed
array, creates a secp256k1 context, calls the Schnorr verification primitive,
destroys the context and returns a JS boolean; and `installSigCheck`, which
binds that host function to the global name `nativeVerifySchnorr`.

Conventions of the embedding.

* A `std::string` is a `List Char`, one `Char` per C `char`.
* A `uint8_t` is a `Nat`; the conversion from `long` is taken modulo `2^8`.
* `secp256k1_schnorrsig_verify` lives in an external library: it is a
  parameter `prim`, a function of the context handle, of the buffers it is
  pointed at and of the message length, returning a C `int`.
* Native effects (context creation and destruction, the steps of the host
  function) are explicit state passing on `NativeState`, which carries the live
  contexts and a log of the steps taken.
-/

namespace SigCheck

/-! ## C library pieces used by the decoding loops -/

/-- A `std::string`: a sequence of C characters. -/
abbrev StdString := List Char

/-- The C locale `isspace`: space, and `\t \n \v \f \r` (codes 9 to 13). -/
def isspace (c : Char) : Bool :=
  decide (c.toNat = 32) || (decide (9 ≤ c.toNat) && decide (c.toNat ≤ 13))

/-- The value of `c` as a digit in base 16, as `strtol` reads it: `0`-`9`, `a`-`f`, `A`-`F`. -/
def hexDigit (c : Char) : Option Nat :=
  if 48 ≤ c.toNat ∧ c.toNat ≤ 57 then some (c.toNat - 48)
  else if 97 ≤ c.toNat ∧ c.toNat ≤ 102 then some (c.toNat - 87)
  else if 65 ≤ c.toNat ∧ c.toNat ≤ 70 then some (c.toNat - 55)
  else none

/-- The `c_str()` view of a string: the characters before the first NUL. -/
def c_str (s : StdString) : List Char :=
  s.takeWhile (fun c => c.toNat ≠ 0)

/-- The `std::string::substr(pos, n)` call: at most `n` characters from position `pos`.
The loops only call it with `pos < size`, where it cannot throw. -/
def substr (s : StdString) (pos n : Nat) : StdString :=
  (s.drop pos).take n

/-- The largest `long` (LP64). -/
def LONG_MAX : Int := 2 ^ 63 - 1

/-- The smallest `long` (LP64). -/
def LONG_MIN : Int := -(2 ^ 63)

/-- The digit loop of `strtol` in base 16: accumulate while the next character is a digit. -/
def strtolDigits : Nat → List Char → Nat
  | acc, [] => acc
  | acc, c :: cs =>
    match hexDigit c with
    | some d => strtolDigits (acc * 16 + d) cs
    | none => acc

/-- The optional sign of `strtol`: whether it is `-`, and the rest of the input. -/
def strtolSign : List Char → Bool × List Char
  | [] => (false, [])
  | c :: cs =>
    if c = '-' then (true, cs)
    else if c = '+' then (false, cs)
    else (false, c :: cs)

/-- The optional `0x` / `0X` of `strtol` in base 16, taken only when a hex digit follows. -/
def strtolPrefix16 : List Char → List Char
  | c :: x :: d :: cs =>
    if c = '0' ∧ (x = 'x' ∨ x = 'X') ∧ (hexDigit d).isSome then d :: cs
    else c :: x :: d :: cs
  | s => s

/-- The call `strtol(nptr, nullptr, 16)`: skip white space, read an optional sign and an
optional `0x`, then the longest run of hex digits; `0` when there is none; clamped to
the range of `long`. -/
def strtol16 (nptr : List Char) : Int :=
  let s := nptr.dropWhile isspace
  let neg := (strtolSign s).1
  let v : Int := (strtolDigits 0 (strtolPrefix16 (strtolSign s).2) : Nat)
  if neg then max (-v) LONG_MIN else min v LONG_MAX

/-- Conversion of a `long` to `uint8_t`: reduction modulo `2^8`. -/
def toUInt8 (v : Int) : Nat :=
  (v % 256).toNat

/-- The right-hand side of the loop body: `strtol(hex.substr(2*i,2).c_str(), nullptr, 16)`
converted to `uint8_t`. -/
def hexByteAt (hex : StdString) (i : Nat) : Nat :=
  toUInt8 (strtol16 (c_str (substr hex (2 * i) 2)))

/-- The decoding loop of the host function over the vector `buf`:
`for (size_t i=0; i<len; i++) buf[i] = strtol(hex.substr(2*i,2).c_str(), nullptr, 16)`. -/
def decodeLoop (hex : StdString) (len : Nat) (buf : List Nat) : List Nat :=
  (List.range len).foldl (fun b i => b.set i (hexByteAt hex i)) buf

/-- The vector `std::vector<uint8_t> buf(len)`: `len` zero bytes. -/
def zeroVector (len : Nat) : List Nat :=
  List.replicate len 0

/-- The decoding of one hex string in the host function: `len = hex.size()/2`, a vector of
`len` bytes, then the loop over it. -/
def decodeHex (hex : StdString) : List Nat :=
  decodeLoop hex (hex.length / 2) (zeroVector (hex.length / 2))

/-! ## JS values and native state -/

/-- The native lambdas that back host functions; the file has one. -/
inductive NativeCode
  | verifySchnorrLambda
  deriving DecidableEq, Repr

/-- A typed array as the binding uses it: `data(rt)` and `length(rt)`. Its declaration is
not in the source file; it is taken as an array of bytes, `data` pointing at the contents
and `length` their count. -/
structure TypedArray where
  bytes : List Nat
  deriving DecidableEq, Repr

/-- The call `arr.data(rt)`. -/
def TypedArray.data (arr : TypedArray) : List Nat := arr.bytes

/-- The call `arr.length(rt)`. -/
def TypedArray.length (arr : TypedArray) : Nat := arr.bytes.length

/-- JS objects: a typed array, a host function object (with its identity, its name, its
declared parameter count and its native code), or any other object. -/
inductive JSObject
  | plain
  | typedArray (arr : TypedArray)
  | hostFunction (id : Nat) (name : String) (paramCount : Nat) (code : NativeCode)
  deriving DecidableEq, Repr

/-- A `jsi::Value`. A string is held as the `std::string` that `utf8(rt)` gives for it, a
number as the bits of its double. -/
inductive Value
  | undefined
  | null
  | bool (b : Bool)
  | number (bits : Nat)
  | string (utf8 : StdString)
  | object (o : JSObject)
  deriving DecidableEq, Repr

/-- What a host function call can end with instead of a value: the JSI exception of a
failed type conversion, or a read of `args[i]` past the arguments passed (undefined in C++;
the model stops there). -/
inductive Fault
  | jsError
  | argsOutOfBounds
  deriving DecidableEq, Repr

/-- The steps of the host function that the log records. -/
inductive Event
  | asString (i : Nat)
  | getTypedArray (i : Nat)
  | allocVector (n : Nat)
  | contextCreate (ctx : Nat)
  | schnorrsigVerify (ctx : Nat) (sig msg : List Nat) (len : Nat) (pub : List Nat)
  | contextDestroy (ctx : Nat)
  deriving DecidableEq, Repr

/-- The steps that can fail: the conversions of the arguments (they throw on a value of
another type) and the allocation of a vector. -/
def Event.canFail : Event → Bool
  | .asString _ => true
  | .getTypedArray _ => true
  | .allocVector _ => true
  | _ => false

/-- The steps that create or destroy a context. -/
def Event.isContextStep : Event → Bool
  | .contextCreate _ => true
  | .contextDestroy _ => true
  | _ => false

/-- The native state: the secp256k1 contexts that are live, the next fresh context handle,
and the log of the steps taken, oldest first. -/
structure NativeState where
  live : List Nat
  next : Nat
  log : List Event
  deriving DecidableEq, Repr

/-- The result of a native computation and the state it leaves. -/
structure Outcome (α : Type) where
  result : Except Fault α
  state : NativeState

/-- A native computation: state passing, with a fault ending it. -/
def Native (α : Type) : Type := NativeState → Outcome α

/-- Sequencing of native computations: a fault skips what follows (stack unwinding). -/
def Native.bind {α β : Type} (m : Native α) (f : α → Native β) : Native β :=
  fun st =>
    match m st with
    | ⟨.ok a, st1⟩ => f a st1
    | ⟨.error e, st1⟩ => ⟨.error e, st1⟩

instance : Monad Native where
  pure a := fun st => ⟨.ok a, st⟩
  bind := Native.bind

/-- A `throw`. -/
def raise {α : Type} (e : Fault) : Native α :=
  fun st => ⟨.error e, st⟩

/-- Record a step in the log. -/
def emit (e : Event) : Native Unit :=
  fun st => ⟨.ok (), { st with log := st.log ++ [e] }⟩

/-- The read `args[i]`. -/
def argAt (args : List Value) (i : Nat) : Native Value :=
  match args.get? i with
  | some v => pure v
  | none => raise .argsOutOfBounds

/-- The call `args[i].asString(rt).utf8(rt)`: throws unless the value is a string. -/
def asStringUtf8 (args : List Value) (i : Nat) : Native StdString := do
  let v ← argAt args i
  emit (.asString i)
  match v with
  | .string s => pure s
  | _ => raise .jsError

/-- The call `args[i].asObject(rt).getTypedArray(rt)`: throws unless the value is an object
and that object a typed array. -/
def asTypedArray (args : List Value) (i : Nat) : Native TypedArray := do
  let v ← argAt args i
  emit (.getTypedArray i)
  match v with
  | .object (.typedArray arr) => pure arr
  | _ => raise .jsError

/-- The construction `std::vector<uint8_t> buf(len)`. -/
def allocVector (len : Nat) : Native (List Nat) := do
  emit (.allocVector len)
  pure (zeroVector len)

/-- The call `secp256k1_context_create(SECP256K1_CONTEXT_VERIFY)`: a fresh handle, now live. -/
def secp256k1_context_create : Native Nat :=
  fun st => ⟨.ok st.next,
    { live := st.next :: st.live, next := st.next + 1, log := st.log ++ [.contextCreate st.next] }⟩

/-- The call `secp256k1_context_destroy(ctx)`: the handle is live no more. -/
def secp256k1_context_destroy (ctx : Nat) : Native Unit :=
  fun st => ⟨.ok (),
    { st with live := st.live.erase ctx, log := st.log ++ [.contextDestroy ctx] }⟩

/-- The external verification primitive `secp256k1_schnorrsig_verify(ctx, sig, msg, len, pub)`,
a parameter of the development: from the context handle, the buffer `sig` points at, the
message buffer, the message length and the buffer `pub` points at, to a C `int`. -/
abbrev Primitive := Nat → List Nat → List Nat → Nat → List Nat → Int

/-- The call of the primitive, recorded in the log. -/
def secp256k1_schnorrsig_verify (prim : Primitive) (ctx : Nat) (sig msg : List Nat) (len : Nat)
    (pub : List Nat) : Native Int := do
  emit (.schnorrsigVerify ctx sig msg len pub)
  pure (prim ctx sig msg len pub)

/-! ## The host function and its installation -/

/-- The lambda given to `Function::createFromHostFunction`: the body of
`nativeVerifySchnorr`. The `this` value and the argument count are not used. -/
def nativeVerifySchnorr (prim : Primitive) ( _thisVal : Value) (args : List Value) :
    Native Value := do
  let sigHex ← asStringUtf8 args 0
  let arr ← asTypedArray args 1
  let pubHex ← asStringUtf8 args 2
  let sigLen := sigHex.length / 2
  let pubLen := pubHex.length / 2
  let sig ← allocVector sigLen
  let pub ← allocVector pubLen
  let sig := decodeLoop sigHex sigLen sig
  let pub := decodeLoop pubHex pubLen pub
  let data := arr.data
  let len := arr.length
  let ctx ← secp256k1_context_create
  let ok ← secp256k1_schnorrsig_verify prim ctx sig data len pub
  secp256k1_context_destroy ctx
  pure (Value.bool (decide (ok ≠ 0)))

/-- The native code behind a host function object. -/
def NativeCode.run : NativeCode → Primitive → Value → List Value → Native Value
  | .verifySchnorrLambda => nativeVerifySchnorr

/-- The JS runtime as `installSigCheck` sees it: the identity of the next object created,
and the properties of the global object. -/
structure Runtime where
  nextObject : Nat
  global : String → Option Value

/-- The call `Function::createFromHostFunction(rt, name, paramCount, code)`: a new function
object. -/
def createFromHostFunction (rt : Runtime) (name : String) (paramCount : Nat)
    (code : NativeCode) : Value × Runtime :=
  (.object (.hostFunction rt.nextObject name paramCount code),
    { rt with nextObject := rt.nextObject + 1 })

/-- The call `rt.global().setProperty(rt, name, v)`. -/
def setGlobalProperty (rt : Runtime) (name : String) (v : Value) : Runtime :=
  { rt with global := fun n => if n = name then some v else rt.global n }

/-- The function `installSigCheck`: create the host function, bind it to the global name. -/
def installSigCheck (rt : Runtime) : Runtime :=
  let (fn, rt1) := createFromHostFunction rt "nativeVerifySchnorr" 3 .verifySchnorrLambda
  setGlobalProperty rt1 "nativeVerifySchnorr" fn

/-- The JNI entry point `Java_com_ndkmobile_sigcheck_SigCheckModule_install`: it installs
into the runtime its pointer argument designates. -/
def Java_com_ndkmobile_sigcheck_SigCheckModule_install (rt : Runtime) : Runtime :=
  installSigCheck rt

/-! ## Notions used to state the properties -/

/-- The steps a computation added to the log of `st`. -/
def stepsOf {α : Type} (st : NativeState) (out : Outcome α) : List Event :=
  out.state.log.drop st.log.length

/-- The message buffer and the length a step hands to the primitive, if it is a call of it. -/
def Event.verifyMessage : Event → Option (List Nat × Nat)
  | .schnorrsigVerify _ _ msg len _ => some (msg, len)
  | _ => none

/-- The `int` the primitive reports for the decoded signature, the bytes and the length of
the typed array, and the decoded public key. -/
def primitiveVerdict (prim : Primitive) (ctx : Nat) (sigHex : StdString) (arr : TypedArray)
    (pubHex : StdString) : Int :=
  prim ctx (decodeHex sigHex) arr.data arr.length (decodeHex pubHex)

/-- The step in which the primitive is called on the decoded signature, the bytes and the
length of the typed array, and the decoded public key. -/
def verifyStep (ctx : Nat) (sigHex : StdString) (arr : TypedArray) (pubHex : StdString) :
    Event :=
  .schnorrsigVerify ctx (decodeHex sigHex) arr.data arr.length (decodeHex pubHex)

/-- The digits of lower-case hexadecimal writing. -/
def lowerHexChars : List Char := "0123456789abcdef".toList

/-- The digits of upper-case hexadecimal writing. -/
def upperHexChars : List Char := "0123456789ABCDEF".toList

/-- The character `c` writes the nibble `v`, in lower or in upper case. -/
def writesNibble (c : Char) (v : Nat) : Bool :=
  decide (v < 16) && (lowerHexChars.get? v == some c || upperHexChars.get? v == some c)

/-- The string `h` is a hex writing of the bytes `b`: two digits per byte, the high nibble
first, each digit in either case. -/
def hexWrites : StdString → List Nat → Bool
  | [], [] => true
  | c1 :: c2 :: h, x :: b =>
    decide (x < 256) && writesNibble c1 (x / 16) && writesNibble c2 (x % 16) && hexWrites h b
  | _, _ => false

/-- The integer a byte sequence encodes, most significant byte first. -/
def beNat (bytes : List Nat) : Nat :=
  bytes.foldl (fun acc b => acc * 256 + b) 0

/-- Modelled from the spec: the field prime of secp256k1, a constant of the external
library. -/
def fieldPrime : Nat := 2 ^ 256 - 2 ^ 32 - 977

/-- Modelled from the spec: the curve order of secp256k1, a constant of the external
library. -/
def curveOrder : Nat :=
  0xFFFFFFFFFFFFFFFFFFFFFFFFFFFFFFFEBAAEDCE6AF48A03BBFD25E8CD0364141

/-- Modelled from the spec: a signature whose first 32 bytes `r` encode an integer not below
the field prime, or whose next 32 bytes `s` encode one not below the curve order. -/
def scalarOutOfRange (sig : List Nat) : Bool :=
  decide (fieldPrime ≤ beNat (sig.take 32)) ||
    decide (curveOrder ≤ beNat ((sig.drop 32).take 32))

/-- A value with the identity of a host function object forgotten: what a global name is
bound to, up to which function object carries it. -/
def Value.forgetIdentity : Value → Value
  | .object (.hostFunction _ name paramCount code) =>
    .object (.hostFunction 0 name paramCount code)
  | v => v

/-! ## Inputs on which the binding is evaluated -/

/-- A primitive that reports every signature invalid. -/
def rejecting : Primitive := fun _ _ _ _ _ => 0

/-- A native state with no live context and an empty log. -/
def freshState : NativeState := ⟨[], 0, []⟩

/-- A native state with one live context and a step logged. -/
def busyState : NativeState := ⟨[4], 7, [.allocVector 1]⟩

/-- A message of 32 zero bytes. -/
def zeroMessage : TypedArray := ⟨List.replicate 32 0⟩

/-- A signature string of 128 hex digits: 64 bytes `0xaa`. -/
def sigHexA : StdString := List.replicate 128 'a'

/-- A key string of 64 hex digits: 32 bytes `0xbb`. -/
def pubHexB : StdString := List.replicate 64 'b'

/-- A signature string of 128 digits `f`: `r` and `s` both encode `2^256 - 1`. -/
def maxSigHex : StdString := List.replicate 128 'f'

/-- A call with the given signature string and key string, on the message `zeroMessage`. -/
def callArgs (sigHex pubHex : StdString) : List Value :=
  [.string sigHex, .object (.typedArray zeroMessage), .string pubHex]

/-! ## The decoding loop -/

theorem decodeLoop_range (hex : StdString) (n : Nat) (buf : List Nat) (hb : buf.length = n) :
    ∀ k, k ≤ n → (List.range k).foldl (fun b i => b.set i (hexByteAt hex i)) buf
      = (List.range k).map (hexByteAt hex) ++ buf.drop k := by
  intro k
  induction k with
  | zero => intro _; simp
  | succ k ih =>
    intro hk
    have hk' : k < buf.length := by omega
    rw [List.range_succ, List.foldl_append, ih (by omega)]
    simp only [List.foldl_cons, List.foldl_nil, List.map_append, List.map_cons, List.map_nil]
    rw [List.set_append_right _ _ (by simp)]
    simp only [List.length_map, List.length_range, Nat.sub_self]
    rw [List.drop_eq_getElem_cons hk', List.set_cons_zero]
    simp

theorem decodeHex_eq_map (hex : StdString) :
    decodeHex hex = (List.range (hex.length / 2)).map (hexByteAt hex) := by
  unfold decodeHex decodeLoop zeroVector
  rw [decodeLoop_range hex (hex.length / 2) _ (by simp) _ (le_refl _)]
  simp

theorem decodeHex_length (hex : StdString) : (decodeHex hex).length = hex.length / 2 := by
  simp [decodeHex_eq_map]

theorem decodeHex_cons_cons (c1 c2 : Char) (hex : StdString) :
    decodeHex (c1 :: c2 :: hex) = toUInt8 (strtol16 (c_str [c1, c2])) :: decodeHex hex := by
  have hlen : (c1 :: c2 :: hex).length / 2 = hex.length / 2 + 1 := by
    simp only [List.length_cons]
    omega
  rw [decodeHex_eq_map, decodeHex_eq_map, hlen, List.range_succ_eq_map]
  simp only [List.map_cons, List.map_map]
  congr 1

theorem hexDigit_of_writesNibble (c : Char) (v : Nat) (h : writesNibble c v = true) :
    hexDigit c = some v := by
  unfold writesNibble at h
  simp only [Bool.and_eq_true, decide_eq_true_eq, Bool.or_eq_true, beq_iff_eq] at h
  obtain ⟨hv, hc⟩ := h
  interval_cases v <;>
    simp [lowerHexChars, upperHexChars] at hc <;>
    rcases hc with rfl | rfl <;> decide

theorem hexDigit_facts (c : Char) (v : Nat) (h : hexDigit c = some v) :
    v < 16 ∧ isspace c = false ∧ c.toNat ≠ 0 ∧ c ≠ '-' ∧ c ≠ '+' := by
  have hm : hexDigit '-' = none := by decide
  have hp : hexDigit '+' = none := by decide
  refine ⟨?_, ?_, ?_, ?_, ?_⟩
  · unfold hexDigit at h
    split_ifs at h <;> simp at h <;> omega
  · unfold hexDigit at h
    unfold isspace
    split_ifs at h <;> simp <;> omega
  · unfold hexDigit at h
    split_ifs at h <;> omega
  · rintro rfl
    rw [hm] at h
    cases h
  · rintro rfl
    rw [hp] at h
    cases h

theorem strtol16_pair (c1 c2 : Char) (hi lo : Nat) (h1 : hexDigit c1 = some hi)
    (h2 : hexDigit c2 = some lo) :
    toUInt8 (strtol16 (c_str [c1, c2])) = 16 * hi + lo := by
  obtain ⟨hhi, hs1, hz1, hm1, hp1⟩ := hexDigit_facts c1 hi h1
  obtain ⟨hlo, _, hz2, _, _⟩ := hexDigit_facts c2 lo h2
  have hc : c_str [c1, c2] = [c1, c2] := by
    simp [c_str, List.takeWhile, hz1, hz2]
  have hd : List.dropWhile isspace [c1, c2] = [c1, c2] := by
    simp [List.dropWhile, hs1]
  have hsign : strtolSign [c1, c2] = (false, [c1, c2]) := by
    simp [strtolSign, hm1, hp1]
  have hpre : strtolPrefix16 [c1, c2] = [c1, c2] := rfl
  have hdig : strtolDigits 0 [c1, c2] = 16 * hi + lo := by
    simp [strtolDigits, h1, h2]
    omega
  unfold strtol16
  simp only [hc, hd, hsign, hpre, hdig]
  unfold toUInt8 LONG_MAX
  simp
  omega

theorem decodeHex_of_hexWrites : ∀ (b : List Nat) (h : StdString),
    hexWrites h b = true → decodeHex h = b ∧ h.length = 2 * b.length
  | [], [], _ => by simp [decodeHex_eq_map]
  | [], _ :: _, hw => by simp [hexWrites] at hw
  | _ :: _, [], hw => by simp [hexWrites] at hw
  | _ :: _, [_], hw => by simp [hexWrites] at hw
  | x :: b, c1 :: c2 :: h, hw => by
    simp only [hexWrites, Bool.and_eq_true, decide_eq_true_eq] at hw
    obtain ⟨⟨⟨hx, h1⟩, h2⟩, hrest⟩ := hw
    obtain ⟨ih, ihlen⟩ := decodeHex_of_hexWrites b h hrest
    have hpair := strtol16_pair c1 c2 (x / 16) (x % 16) (hexDigit_of_writesNibble _ _ h1)
      (hexDigit_of_writesNibble _ _ h2)
    refine ⟨?_, ?_⟩
    · rw [decodeHex_cons_cons, hpair, ih]
      congr 1
      omega
    · simp only [List.length_cons]
      omega

/-! ## The runs of the host function -/

theorem run_wellTyped (prim : Primitive) (thisVal : Value) (sigHex pubHex : StdString)
    (arr : TypedArray) (rest : List Value) (st : NativeState) :
    nativeVerifySchnorr prim thisVal
        (.string sigHex :: .object (.typedArray arr) :: .string pubHex :: rest) st
      = ⟨.ok (.bool (decide (primitiveVerdict prim st.next sigHex arr pubHex ≠ 0))),
         { live := st.live, next := st.next + 1,
           log := st.log ++ [.asString 0, .getTypedArray 1, .asString 2,
             .allocVector (sigHex.length / 2), .allocVector (pubHex.length / 2),
             .contextCreate st.next, verifyStep st.next sigHex arr pubHex,
             .contextDestroy st.next] }⟩ := by
  simp [nativeVerifySchnorr, asStringUtf8, asTypedArray, argAt, emit, allocVector,
    secp256k1_context_create, secp256k1_schnorrsig_verify, secp256k1_context_destroy,
    bind, Native.bind, pure, decodeHex, TypedArray.data, TypedArray.length, primitiveVerdict,
    verifyStep]

theorem run_notString0 (prim : Primitive) (thisVal a0 : Value) (args : List Value)
    (st : NativeState) (h0 : ∀ s, a0 ≠ .string s) :
    nativeVerifySchnorr prim thisVal (a0 :: args) st
      = ⟨.error .jsError, { st with log := st.log ++ [.asString 0] }⟩ := by
  cases a0 <;>
    first
    | exact absurd rfl (h0 _)
    | simp [nativeVerifySchnorr, asStringUtf8, argAt, emit, raise, bind, Native.bind, pure]

theorem run_notTypedArray1 (prim : Primitive) (thisVal a1 : Value) (sigHex : StdString)
    (args : List Value) (st : NativeState) (h1 : ∀ arr, a1 ≠ .object (.typedArray arr)) :
    nativeVerifySchnorr prim thisVal (.string sigHex :: a1 :: args) st
      = ⟨.error .jsError, { st with log := st.log ++ [.asString 0, .getTypedArray 1] }⟩ := by
  cases a1 with
  | object o =>
    cases o <;>
      first
      | exact absurd rfl (h1 _)
      | simp [nativeVerifySchnorr, asStringUtf8, asTypedArray, argAt, emit, raise, bind,
          Native.bind, pure]
  | _ =>
    simp [nativeVerifySchnorr, asStringUtf8, asTypedArray, argAt, emit, raise, bind,
      Native.bind, pure]

theorem run_notString2 (prim : Primitive) (thisVal a2 : Value) (sigHex : StdString)
    (arr : TypedArray) (args : List Value) (st : NativeState) (h2 : ∀ s, a2 ≠ .string s) :
    nativeVerifySchnorr prim thisVal (.string sigHex :: .object (.typedArray arr) :: a2 :: args) st
      = ⟨.error .jsError,
          { st with log := st.log ++ [.asString 0, .getTypedArray 1, .asString 2] }⟩ := by
  cases a2 <;>
    first
    | exact absurd rfl (h2 _)
    | simp [nativeVerifySchnorr, asStringUtf8, asTypedArray, argAt, emit, raise, bind,
        Native.bind, pure]

theorem Value.string_or (v : Value) : (∃ s, v = .string s) ∨ ∀ s, v ≠ .string s := by
  cases v <;> simp

theorem Value.typedArray_or (v : Value) :
    (∃ arr, v = .object (.typedArray arr)) ∨ ∀ arr, v ≠ .object (.typedArray arr) := by
  cases v with
  | object o => cases o <;> simp
  | _ => simp

theorem stepsOf_wellTyped (prim : Primitive) (thisVal : Value) (sigHex pubHex : StdString)
    (arr : TypedArray) (rest : List Value) (st : NativeState) :
    stepsOf st (nativeVerifySchnorr prim thisVal
        (.string sigHex :: .object (.typedArray arr) :: .string pubHex :: rest) st)
      = [.asString 0, .getTypedArray 1, .asString 2,
          .allocVector (sigHex.length / 2), .allocVector (pubHex.length / 2),
          .contextCreate st.next, verifyStep st.next sigHex arr pubHex,
          .contextDestroy st.next] := by
  rw [run_wellTyped]
  simp [stepsOf]

/-! ## The properties -/

set_option maxRecDepth 100000

/-- C1: for every call of `nativeVerifySchnorr` on a signature hex string, a message typed
array and a public-key hex string, the value returned is the boolean `true` exactly when the
primitive, applied to the decoded signature, the bytes and the length of the typed array and
the decoded public key, reports a non-zero `int`; otherwise it is the boolean `false`. -/
theorem C1_true_iff_primitive_valid (prim : Primitive) (thisVal : Value)
    (sigHex pubHex : StdString) (arr : TypedArray) (rest : List Value) (st : NativeState) :
    ((nativeVerifySchnorr prim thisVal
          (.string sigHex :: .object (.typedArray arr) :: .string pubHex :: rest) st).result
        = .ok (.bool true) ↔ primitiveVerdict prim st.next sigHex arr pubHex ≠ 0) ∧
    ((nativeVerifySchnorr prim thisVal
          (.string sigHex :: .object (.typedArray arr) :: .string pubHex :: rest) st).result
        = .ok (.bool false) ↔ primitiveVerdict prim st.next sigHex arr pubHex = 0) := by
  rw [run_wellTyped]
  by_cases h : primitiveVerdict prim st.next sigHex arr pubHex = 0 <;> simp [h]

/-- C5, refuted as stated: for the signature of 64 bytes `0xff`, whose `r` and `s` both
encode `2^256 - 1`, and a primitive that reports it invalid, the call returns the boolean
`false`, not a fault. -/
theorem C5_out_of_range_returns_false :
    scalarOutOfRange (decodeHex maxSigHex) = true ∧
    (nativeVerifySchnorr rejecting .undefined (callArgs maxSigHex pubHexB) freshState).result
      = .ok (.bool false) :=
  ⟨by decide, rfl⟩

/-- C5, amended: for every signature whose `r` is not below the field prime or whose `s` is
not below the curve order, the binding yields no fault: the call returns a boolean, the
primitive's verdict, which is `false` whenever the primitive reports 0 for it. -/
theorem C5_out_of_range_returns_verdict (prim : Primitive) (thisVal : Value)
    (sigHex pubHex : StdString) (arr : TypedArray) (rest : List Value) (st : NativeState)
    ( _h : scalarOutOfRange (decodeHex sigHex) = true) :
    (nativeVerifySchnorr prim thisVal
        (.string sigHex :: .object (.typedArray arr) :: .string pubHex :: rest) st).result
      = .ok (.bool (decide (primitiveVerdict prim st.next sigHex arr pubHex ≠ 0))) ∧
    (primitiveVerdict prim st.next sigHex arr pubHex = 0 →
      (nativeVerifySchnorr prim thisVal
          (.string sigHex :: .object (.typedArray arr) :: .string pubHex :: rest) st).result
        = .ok (.bool false)) := by
  rw [run_wellTyped]
  refine ⟨rfl, fun hv => ?_⟩
  simp [hv]

/-- C5, amended, at the signature of 64 bytes `0xff`. -/
theorem C5_out_of_range_returns_verdict_witness :
    scalarOutOfRange (decodeHex maxSigHex) = true ∧
    (nativeVerifySchnorr rejecting .undefined (callArgs maxSigHex pubHexB) freshState).result
      = .ok (.bool (decide (primitiveVerdict rejecting freshState.next maxSigHex zeroMessage
          pubHexB ≠ 0))) ∧
    (primitiveVerdict rejecting freshState.next maxSigHex zeroMessage pubHexB = 0 →
      (nativeVerifySchnorr rejecting .undefined (callArgs maxSigHex pubHexB) freshState).result
        = .ok (.bool false)) :=
  ⟨by decide, C5_out_of_range_returns_verdict rejecting .undefined maxSigHex pubHexB zeroMessage
    [] freshState (by decide)⟩

/-- C6: verification is deterministic. Given that the primitive is a function of its byte
inputs (it reports the same for every context handle), two calls of `nativeVerifySchnorr`
with the same first three arguments end with the same result, whatever the native states
they start in, their `this` values and their further arguments. -/
theorem C6_result_depends_on_three_arguments (prim : Primitive)
    (hprim : ∀ c c' sig msg len pub, prim c sig msg len pub = prim c' sig msg len pub)
    (st st' : NativeState) (thisVal thisVal' a0 a1 a2 : Value) (rest rest' : List Value) :
    (nativeVerifySchnorr prim thisVal (a0 :: a1 :: a2 :: rest) st).result
      = (nativeVerifySchnorr prim thisVal' (a0 :: a1 :: a2 :: rest') st').result := by
  rcases Value.string_or a0 with ⟨s, rfl⟩ | h0
  · rcases Value.typedArray_or a1 with ⟨arr, rfl⟩ | h1
    · rcases Value.string_or a2 with ⟨p, rfl⟩ | h2
      · rw [run_wellTyped, run_wellTyped]
        simp only [primitiveVerdict, hprim st.next st'.next]
      · rw [run_notString2 _ _ _ _ _ _ _ h2, run_notString2 _ _ _ _ _ _ _ h2]
    · rw [run_notTypedArray1 _ _ _ _ _ _ h1, run_notTypedArray1 _ _ _ _ _ _ h1]
  · rw [run_notString0 _ _ _ _ _ h0, run_notString0 _ _ _ _ _ h0]

/-- C6, at two calls on the same signature, message and key, from different native states,
with different `this` values and different further arguments. -/
theorem C6_result_depends_on_three_arguments_witness :
    (∀ c c' sig msg len pub, rejecting c sig msg len pub = rejecting c' sig msg len pub) ∧
    (nativeVerifySchnorr rejecting .undefined
        (.string sigHexA :: .object (.typedArray zeroMessage) :: .string pubHexB :: [])
        freshState).result
      = (nativeVerifySchnorr rejecting .null
        (.string sigHexA :: .object (.typedArray zeroMessage) :: .string pubHexB :: [.null])
        busyState).result :=
  ⟨fun _ _ _ _ _ _ => rfl,
    C6_result_depends_on_three_arguments rejecting (fun _ _ _ _ _ _ => rfl) freshState busyState
      .undefined .null (.string sigHexA) (.object (.typedArray zeroMessage)) (.string pubHexB)
      [] [.null]⟩

/-- C7: registration is idempotent. For every runtime, after `installSigCheck` has run twice
every global name is bound as after one run, up to which function object carries the
binding: `nativeVerifySchnorr` is bound to a host function object of that name, of three
parameters, backed by the verification lambda, and every other global binding is the one
the runtime had before. -/
theorem C7_install_twice_as_once (rt : Runtime) :
    (∀ n, ((installSigCheck (installSigCheck rt)).global n).map Value.forgetIdentity
        = ((installSigCheck rt).global n).map Value.forgetIdentity) ∧
    (∃ id, (installSigCheck (installSigCheck rt)).global "nativeVerifySchnorr"
        = some (.object (.hostFunction id "nativeVerifySchnorr" 3 .verifySchnorrLambda))) ∧
    (∃ id, (installSigCheck rt).global "nativeVerifySchnorr"
        = some (.object (.hostFunction id "nativeVerifySchnorr" 3 .verifySchnorrLambda))) ∧
    (∀ n, n ≠ "nativeVerifySchnorr" →
      (installSigCheck (installSigCheck rt)).global n = rt.global n ∧
      (installSigCheck rt).global n = rt.global n) := by
  refine ⟨fun n => ?_, ⟨rt.nextObject + 1, ?_⟩, ⟨rt.nextObject, ?_⟩, fun n hn => ?_⟩
  · by_cases hn : n = "nativeVerifySchnorr" <;>
      simp [installSigCheck, createFromHostFunction, setGlobalProperty, hn,
        Value.forgetIdentity]
  · simp [installSigCheck, createFromHostFunction, setGlobalProperty]
  · simp [installSigCheck, createFromHostFunction, setGlobalProperty]
  · simp [installSigCheck, createFromHostFunction, setGlobalProperty, hn]

/-- C8: for every message typed array, of any length, the call hands the primitive exactly
the contents of the typed array as the message and their count as the length, in the one
call of the primitive it makes; no length is refused. -/
theorem C8_message_passed_unchanged (prim : Primitive) (thisVal : Value)
    (sigHex pubHex : StdString) (arr : TypedArray) (rest : List Value) (st : NativeState) :
    (stepsOf st (nativeVerifySchnorr prim thisVal
        (.string sigHex :: .object (.typedArray arr) :: .string pubHex :: rest) st)).filterMap
        Event.verifyMessage = [(arr.bytes, arr.bytes.length)] ∧
    (nativeVerifySchnorr prim thisVal
        (.string sigHex :: .object (.typedArray arr) :: .string pubHex :: rest) st).result
      = .ok (.bool (decide (prim st.next (decodeHex sigHex) arr.bytes arr.bytes.length
          (decodeHex pubHex) ≠ 0))) := by
  refine ⟨?_, ?_⟩
  · rw [stepsOf_wellTyped]
    simp [List.filterMap, Event.verifyMessage, verifyStep, TypedArray.data, TypedArray.length]
  · rw [run_wellTyped]
    rfl

/-- C9: the verification context is ephemeral. For every call of the host function with
three arguments or more, the live contexts after the call are those before it, on every
exit path. A call that throws has created no context. A call that returns ends with the
creation of a context, one step that cannot fail, the call of the primitive, and the
destruction of that same context, no other context step coming before. -/
theorem C9_context_released_on_every_path (prim : Primitive) (st : NativeState)
    (thisVal a0 a1 a2 : Value) (rest : List Value) :
    (nativeVerifySchnorr prim thisVal (a0 :: a1 :: a2 :: rest) st).state.live = st.live ∧
    (nativeVerifySchnorr prim thisVal (a0 :: a1 :: a2 :: rest) st).state.live.length
      = st.live.length ∧
    (((∃ f, (nativeVerifySchnorr prim thisVal (a0 :: a1 :: a2 :: rest) st).result = .error f) ∧
      ∀ e ∈ stepsOf st (nativeVerifySchnorr prim thisVal (a0 :: a1 :: a2 :: rest) st),
        e.isContextStep = false) ∨
     ((∃ r, (nativeVerifySchnorr prim thisVal (a0 :: a1 :: a2 :: rest) st).result = .ok r) ∧
      ∃ pre v, stepsOf st (nativeVerifySchnorr prim thisVal (a0 :: a1 :: a2 :: rest) st)
          = pre ++ [.contextCreate st.next, v, .contextDestroy st.next] ∧
        (∀ e ∈ pre, e.isContextStep = false) ∧ v.canFail = false ∧
        (v.verifyMessage).isSome = true)) := by
  rcases Value.string_or a0 with ⟨s, rfl⟩ | h0
  · rcases Value.typedArray_or a1 with ⟨arr, rfl⟩ | h1
    · rcases Value.string_or a2 with ⟨p, rfl⟩ | h2
      · rw [run_wellTyped]
        refine ⟨rfl, rfl, Or.inr ⟨⟨_, rfl⟩, [.asString 0, .getTypedArray 1, .asString 2,
             .allocVector (s.length / 2), .allocVector (p.length / 2)],
             verifyStep st.next s arr p, ?_, ?_, rfl, rfl⟩⟩
        · simp [stepsOf]
        · simp [Event.isContextStep]
      · rw [run_notString2 _ _ _ _ _ _ _ h2]
        exact ⟨rfl, rfl, Or.inl ⟨⟨_, rfl⟩, by simp [stepsOf, Event.isContextStep]⟩⟩
    · rw [run_notTypedArray1 _ _ _ _ _ _ h1]
      exact ⟨rfl, rfl, Or.inl ⟨⟨_, rfl⟩, by simp [stepsOf, Event.isContextStep]⟩⟩
  · rw [run_notString0 _ _ _ _ _ h0]
    exact ⟨rfl, rfl, Or.inl ⟨⟨_, rfl⟩, by simp [stepsOf, Event.isContextStep]⟩⟩

/-- C10: hex decoding undoes hex encoding. For every byte sequence `b` and every string `h`
that writes `b` in hexadecimal, two digits per byte, the high nibble first, each digit in
lower or upper case, the decoding loop gives a buffer equal to `b`, of length `|b| = |h|/2`;
so 128 characters give 64 bytes and 64 characters give 32. -/
theorem C10_decode_undoes_encode (b : List Nat) (h : StdString) (hw : hexWrites h b = true) :
    decodeHex h = b ∧ (decodeHex h).length = b.length ∧ b.length = h.length / 2 ∧
    (h.length = 128 → (decodeHex h).length = 64) ∧
    (h.length = 64 → (decodeHex h).length = 32) := by
  obtain ⟨hd, hl⟩ := decodeHex_of_hexWrites b h hw
  refine ⟨hd, by rw [hd], by omega, fun h128 => ?_, fun h64 => ?_⟩
  · rw [decodeHex_length, h128]
  · rw [decodeHex_length, h64]

/-- C10, at the mixed-case string `deadBEEF` and the bytes it writes. -/
theorem C10_decode_undoes_encode_witness :
    hexWrites "deadBEEF".toList [222, 173, 190, 239] = true ∧
    decodeHex "deadBEEF".toList = [222, 173, 190, 239] ∧
    (decodeHex "deadBEEF".toList).length = [222, 173, 190, 239].length ∧
    [222, 173, 190, 239].length = "deadBEEF".toList.length / 2 ∧
    ("deadBEEF".toList.length = 128 → (decodeHex "deadBEEF".toList).length = 64) ∧
    ("deadBEEF".toList.length = 64 → (decodeHex "deadBEEF".toList).length = 32) :=
  ⟨by decide, C10_decode_undoes_encode [222, 173, 190, 239] "deadBEEF".toList (by decide)⟩

end SigCheck
